import Mathlib

/-
Verification of the Brain Network Transformer model module (`src/models/bnt.py`):
the deep-embedded-clustering pooling mechanism (ClusterAssignment, DEC,
TransPoolingEncoder, BrainNetworkTransformer) and the LRScheduler state machine.
Tensors of real numbers are embedded as functions `Fin n → ℝ` /
`EuclideanSpace ℝ (Fin d)`; Python floats are idealised as real numbers;
Python exceptions are modelled explicitly as error values.
-/

open Finset

noncomputable section

/-! ## Vector primitives (torch.dot, torch.norm(·, p=2)) -/

/-- Embedding of `torch.dot(u, v)`: the sum of coordinatewise products. -/
def dotv {d : ℕ} (u v : EuclideanSpace ℝ (Fin d)) : ℝ := ∑ t, u t * v t

/-- Embedding of `torch.norm(u, p=2)`: the L2 norm, as the square root of the
sum of squared coordinates. -/
def l2norm {d : ℕ} (u : EuclideanSpace ℝ (Fin d)) : ℝ := Real.sqrt (∑ t, (u t) ^ 2)

/-! ## ClusterAssignment -/

/-- Embedding of the attributes of class `ClusterAssignment` that its
`forward` method reads: `alpha`, `project_assignment`, and the
`cluster_centers` parameter tensor of shape `[cluster_number, embedding_dimension]`. -/
structure ClusterAssignment (k d : ℕ) where
  alpha : ℝ
  project_assignment : Bool
  cluster_centers : Fin k → EuclideanSpace ℝ (Fin d)

/-- Embedding of the static method `ClusterAssignment.project`:
`(torch.dot(u, v) / torch.dot(u, u)) * u`.  The tensor-by-scalar product is a
scalar action on the vector. -/
def ClusterAssignment.project {d : ℕ} (u v : EuclideanSpace ℝ (Fin d)) :
    EuclideanSpace ℝ (Fin d) :=
  (dotv u v / dotv u u) • u

/-- Embedding of `torch.nn.functional.softmax(z, dim=-1)` applied to one row:
`exp (z j) / ∑ j', exp (z j')`. -/
def softmax {k : ℕ} (z : Fin k → ℝ) : Fin k → ℝ :=
  fun j => Real.exp (z j) / ∑ j', Real.exp (z j')

/-- Embedding of the Student-t numerator of `ClusterAssignment.forward`
(`project_assignment=False` branch) for sample row `x` and cluster `j`:
`norm_squared = ∑ t, (x t − center_j t)²`, `numerator = (1/(1 + norm_squared/alpha))`,
then raised to the float power `(alpha + 1)/2` (real exponentiation). -/
def studentNumerator {k d : ℕ} (alpha : ℝ) (centers : Fin k → EuclideanSpace ℝ (Fin d))
    (x : EuclideanSpace ℝ (Fin d)) (j : Fin k) : ℝ :=
  (1 / (1 + (∑ t, (x t - centers j t) ^ 2) / alpha)) ^ ((alpha + 1) / 2)

/-- Embedding of `ClusterAssignment.forward` on a batch of `n` feature vectors of
dimension `d`, returning the `[n, k]` assignment matrix.
With `project_assignment`: `assignment = batch @ cluster_centers.T`, squared
elementwise, each column `j` divided by the L2 norm of center `j`, then
row-wise softmax.  Otherwise: the Student-t kernel, each row divided by its sum. -/
def ClusterAssignment.forward {n k d : ℕ} (ca : ClusterAssignment k d)
    (batch : Fin n → EuclideanSpace ℝ (Fin d)) : Fin n → Fin k → ℝ :=
  if ca.project_assignment then
    fun i => softmax (fun j =>
      (dotv (batch i) (ca.cluster_centers j)) ^ 2 / l2norm (ca.cluster_centers j))
  else
    fun i j => studentNumerator ca.alpha ca.cluster_centers (batch i) j /
      ∑ j', studentNumerator ca.alpha ca.cluster_centers (batch i) j'

/-! ## Orthogonal initialisation of cluster centers

In `ClusterAssignment.__init__` with `orthogonal=True`, the loop
`for i in range(1, cluster_number)` subtracts from `initial_cluster_centers[i]`
its projections onto `initial_cluster_centers[j]` for all `j < i` — where rows
`j ≥ 1` have already been overwritten by their own orthogonalised versions —
and then stores the result, renormalised to unit L2 norm, in
`orthogonal_cluster_centers[i]`.  Row 0 is copied over unchanged. -/

/-- Embedding of the mutated `initial_cluster_centers` rows after the
orthogonalisation loop of `ClusterAssignment.__init__`: row `i` is the original
row `i` minus its `ClusterAssignment.project` projections onto the already
processed rows `j < i`. -/
def orthogonalized {k d : ℕ} (c : Fin k → EuclideanSpace ℝ (Fin d)) (i : Fin k) :
    EuclideanSpace ℝ (Fin d) :=
  c i - ∑ j : Finset.Iio i, ClusterAssignment.project (orthogonalized c j) (c i)
termination_by i
decreasing_by
  have h := Finset.mem_Iio.1 j.2
  exact h

/-- Embedding of the `orthogonal_cluster_centers` tensor produced by
`ClusterAssignment.__init__` when `orthogonal=True`: row 0 is the initial row 0
unchanged; row `i ≥ 1` is the orthogonalised row `i` divided by its L2 norm
(tensor-by-scalar division, i.e. scaling by the inverse of the norm). -/
def orthoCenters {k d : ℕ} (c : Fin k → EuclideanSpace ℝ (Fin d)) (i : Fin k) :
    EuclideanSpace ℝ (Fin d) :=
  if i.val = 0 then c i else (l2norm (orthogonalized c i))⁻¹ • orthogonalized c i

/-- Embedding of the choice of `cluster_centers` made by
`ClusterAssignment.__init__` from the supplied initial centers: the
orthogonalised set when `orthogonal=True`, the initial set unchanged otherwise. -/
def mkClusterCenters {k d : ℕ} (initial : Fin k → EuclideanSpace ℝ (Fin d))
    (orthogonal : Bool) : Fin k → EuclideanSpace ℝ (Fin d) :=
  if orthogonal then orthoCenters initial else initial

/-! ## DEC: target distribution and KL loss -/

/-- Embedding of `DEC.target_distribution`:
`weight = batch**2 / torch.sum(batch, 0)` (square entries, divide each column by
its column sum), then `(weight.t() / torch.sum(weight, 1)).t()` (divide each row
by its row sum). -/
def DEC.target_distribution {n k : ℕ} (batch : Fin n → Fin k → ℝ) :
    Fin n → Fin k → ℝ :=
  fun i j => (batch i j ^ 2 / ∑ i', batch i' j) /
    ∑ j', (batch i j' ^ 2 / ∑ i', batch i' j')

/-- Embedding of `DEC.loss` on an already flattened `[N, k]` assignment matrix:
`KLDivLoss(size_average=False)(assignment.log(), target)` — the sum over all
entries of `target · (log target − log assignment)` — divided by the row
count `N`.  The target is `DEC.target_distribution` of the assignment
(detaching affects only gradients, which the embedding does not model). -/
def DEC.loss {N k : ℕ} (assignment : Fin N → Fin k → ℝ) : ℝ :=
  (∑ i, ∑ j, DEC.target_distribution assignment i j *
    (Real.log (DEC.target_distribution assignment i j) - Real.log (assignment i j))) / N

/-! ## BrainNetworkTransformer: loss aggregation, constructor shapes,
cluster-center getter -/

/-- Python exceptions that the embedded methods can raise. -/
inductive PyErr
  | assertionError
  | attributeError
  | zeroDivisionError
  | indexError
  deriving DecidableEq

/-- View of one `TransPoolingEncoder` entry of `self.attention_list` as used by
`BrainNetworkTransformer.loss`: its `pooling` flag (`is_pooling_enabled`) and its
`loss` method (delegating to `self.dec.loss`), abstracted over the assignment
payload type `A`. -/
structure BNTStage (A : Type) where
  pooling : Bool
  decLoss : A → ℝ

/-- Embedding of the accumulation loop of `BrainNetworkTransformer.loss`:
`loss_all = None`, then for each surviving assignment at position `index`,
`loss_all = decs[index].loss(assignment)` (first time) or
`loss_all += decs[index].loss(assignment)`.  Walking `decs` and the assignments
in lockstep realises the `decs[index]` indexing; running out of `decs` is the
`IndexError` of an out-of-range index. -/
def bntLossLoop {A : Type} :
    List (BNTStage A) → List A → Option ℝ → Except PyErr (Option ℝ)
  | _, [], acc => .ok acc
  | [], _ :: _, _ => .error .indexError
  | dec :: decs, a :: rest, acc =>
      bntLossLoop decs rest
        (some (match acc with
          | none => dec.decLoss a
          | some v => v + dec.decLoss a))

/-- Embedding of `BrainNetworkTransformer.loss`:
`decs = filter(is_pooling_enabled, attention_list)`,
`assignments = filter(x is not None, assignments)`, then the accumulation loop,
returning `loss_all` (which is Python `None` when no assignment survives). -/
def BrainNetworkTransformer.loss {A : Type} (attention_list : List (BNTStage A))
    (assignments : List (Option A)) : Except PyErr (Option ℝ) :=
  bntLossLoop (attention_list.filter (·.pooling)) (assignments.filterMap id) none

/-- Embedding of the per-stage assignment list collected by
`BrainNetworkTransformer.forward`: each `TransPoolingEncoder` with
`pooling=False` contributes `None` to `assignments`; a pooling stage
contributes its DEC assignment (here supplied by `aVal`, indexed by position). -/
def forwardAssignments {A : Type} : List (BNTStage A) → (ℕ → A) → List (Option A)
  | [], _ => []
  | st :: rest, aVal =>
      (if st.pooling then some (aVal 0) else none) ::
        forwardAssignments rest (fun m => aVal (m + 1))

/-- Positional-encoding mode of the model configuration
(`pos_encoding ∈ ["identity", "none"]`). -/
inductive PosEnc
  | identity
  | nullEnc
  deriving DecidableEq

/-- Embedding of the model-configuration fields read by
`BrainNetworkTransformer.__init__`. -/
structure ModelCfg where
  sizes : List ℕ
  pooling : List Bool
  pos_encoding : PosEnc
  node_sz : ℕ
  node_feature_sz : ℕ
  pos_embed_dim : ℕ
  output_size : ℕ
  orthogonal : Bool
  freeze_center : Bool
  project_assignment : Bool

/-- Constructor arguments of one `TransPoolingEncoder` as built by
`BrainNetworkTransformer.__init__`. -/
structure StageSpec where
  input_feature_size : ℕ
  input_node_num : ℕ
  output_node_num : ℕ
  pooling : Bool
  deriving DecidableEq

/-- Embedding of the stage-construction part of
`BrainNetworkTransformer.__init__`:
`forward_dim` is `node_feature_sz`, or `node_sz + pos_embed_dim` under identity
positional encoding; `sizes[0] = node_sz` overwrites the first configured size
(raising `IndexError` on an empty list); `in_sizes = [node_sz] + sizes[:-1]`;
stage `index` is built from `(forward_dim, in_sizes[index], sizes[index],
do_pooling[index])`, the last raising `IndexError` when the pooling list is
shorter than `sizes`. -/
def buildStages (cfg : ModelCfg) : Except PyErr (List StageSpec) :=
  let forward_dim := if cfg.pos_encoding = PosEnc.identity
    then cfg.node_sz + cfg.pos_embed_dim else cfg.node_feature_sz
  match cfg.sizes with
  | [] => .error .indexError
  | _ :: tail =>
    let sizes := cfg.node_sz :: tail
    let in_sizes := cfg.node_sz :: sizes.dropLast
    if cfg.pooling.length < sizes.length then .error .indexError
    else .ok ((in_sizes.zip (sizes.zip cfg.pooling)).map fun p =>
      { input_feature_size := forward_dim
        input_node_num := p.1
        output_node_num := p.2.1
        pooling := p.2.2 })

/-- Embedding of the attributes assigned on `self` by
`BrainNetworkTransformer.__init__`.  The field `dec` records whether an
attribute named `dec` was ever assigned: no statement in the source ever
assigns `self.dec`, so the constructor below always leaves it `none`
(the per-stage DEC modules live at `self.attention_list[i].dec` instead). -/
structure BrainNetworkTransformer where
  pos_encoding : PosEnc
  attention_list : List StageSpec
  do_pooling : List Bool
  dec : Option Unit

/-- Embedding of `BrainNetworkTransformer.__init__` (the attribute assignments
relevant to `get_cluster_centers` and `loss`): builds `attention_list` from the
configuration and never assigns `self.dec`. -/
def BrainNetworkTransformer.init (cfg : ModelCfg) :
    Except PyErr BrainNetworkTransformer :=
  (buildStages cfg).map fun stages =>
    { pos_encoding := cfg.pos_encoding
      attention_list := stages
      do_pooling := cfg.pooling
      dec := none }

/-- Embedding of `BrainNetworkTransformer.get_cluster_centers`: the body is
`return self.dec.get_cluster_centers()`, so it looks up the attribute `dec`,
raising `AttributeError` when it was never assigned. -/
def BrainNetworkTransformer.get_cluster_centers (m : BrainNetworkTransformer) :
    Except PyErr Unit :=
  match m.dec with
  | none => .error .attributeError
  | some d => .ok d

/-! ## LRScheduler -/

/-- Learning-rate schedule modes accepted by the `LRScheduler` constructor
assertion: `["step", "poly", "cos", "linear", "decay"]`. -/
inductive LRMode
  | step
  | poly
  | cos
  | linear
  | decay
  deriving DecidableEq

/-- Embedding of the `model_cfg.scheduler` configuration fields read by
`LRScheduler`. -/
structure SchedulerCfg where
  mode : LRMode
  base_lr : ℝ
  target_lr : ℝ
  decay_factor : ℝ
  milestones : List ℝ
  poly_power : ℝ
  lr_decay : ℝ
  warm_up_from : ℝ
  warm_up_steps : ℕ

/-- Embedding of the `LRScheduler` state: the configuration, `total_steps`
(= `cfg.mode.max_epochs`), the step counter, the last computed rate
(`self.lr`, initially Python `None`), and the `lr` field of each optimizer
parameter group.  The attribute `self.training_config` read by the `decay`
branch is never assigned anywhere in the source, so it is not part of the
state and reading it raises `AttributeError`. -/
structure LRScheduler where
  scheduler_cfg : SchedulerCfg
  total_steps : ℕ
  current_step : ℕ
  lr : Option ℝ
  param_groups : List ℝ

/-- Result of one embedded `LRScheduler.step` call: either the updated state,
or a raised exception together with the state at the moment of the raise
(all mutations of `step` happen after every potential raise point). -/
inductive StepResult
  | ok (s : LRScheduler)
  | exn (e : PyErr) (s : LRScheduler)

/-- Embedding of `bisect.bisect_left` (binary search insertion point), with
list indexing `a[mid]` as `getD`; the fuel argument bounds the loop, and
`a.length` iterations always suffice since `hi - lo` shrinks every iteration. -/
def bisectLeftAux (a : List ℝ) (x : ℝ) : ℕ → ℕ → ℕ → ℕ
  | 0, lo, _ => lo
  | fuel + 1, lo, hi =>
    if lo < hi then
      let mid := (lo + hi) / 2
      if a.getD mid 0 < x then bisectLeftAux a x fuel (mid + 1) hi
      else bisectLeftAux a x fuel lo mid
    else lo

/-- Embedding of `bisect.bisect_left(a, x)` with the default bounds
`lo = 0`, `hi = len(a)`. -/
def bisectLeft (a : List ℝ) (x : ℝ) : ℕ :=
  bisectLeftAux a x a.length 0 a.length

/-- Shared tail of every non-raising path of `LRScheduler.step`: store the
computed rate in `self.lr`, write it into every optimizer parameter group, and
increment `self.current_step` by one. -/
def LRScheduler.commit (s : LRScheduler) (v : ℝ) : LRScheduler :=
  { s with lr := some v
           param_groups := s.param_groups.map fun _ => v
           current_step := s.current_step + 1 }

/-- Embedding of `LRScheduler.step`.  In order: the entry assertion
`0 ≤ current_step ≤ total_steps` (the lower bound is automatic for `ℕ`);
the warm-up branch when `current_step < warm_up_steps`; otherwise the ratio
`(current_step − warm_up_steps) / (total_steps − warm_up_steps)`, which raises
`ZeroDivisionError` when `total_steps = warm_up_steps`; then the per-mode rate.
The `decay` branch reads the never-assigned attribute `self.training_config`
and therefore raises `AttributeError`.  Python float exponentiation in the
`poly` branch is real exponentiation. -/
def LRScheduler.step (s : LRScheduler) : StepResult :=
  if s.total_steps < s.current_step then .exn .assertionError s
  else if s.current_step < s.scheduler_cfg.warm_up_steps then
    s.commit (s.scheduler_cfg.warm_up_from +
      (s.scheduler_cfg.base_lr - s.scheduler_cfg.warm_up_from) *
        ((s.current_step : ℝ) / (s.scheduler_cfg.warm_up_steps : ℝ))) |> .ok
  else if s.total_steps = s.scheduler_cfg.warm_up_steps then .exn .zeroDivisionError s
  else
    let rat : ℝ := ((s.current_step : ℝ) - (s.scheduler_cfg.warm_up_steps : ℝ)) /
      ((s.total_steps : ℝ) - (s.scheduler_cfg.warm_up_steps : ℝ))
    match s.scheduler_cfg.mode with
    | .step => .ok (s.commit (s.scheduler_cfg.base_lr *
        s.scheduler_cfg.decay_factor ^ bisectLeft s.scheduler_cfg.milestones rat))
    | .poly => .ok (s.commit (s.scheduler_cfg.target_lr +
        (s.scheduler_cfg.base_lr - s.scheduler_cfg.target_lr) *
          ((1 - rat) ^ s.scheduler_cfg.poly_power)))
    | .cos => .ok (s.commit (s.scheduler_cfg.target_lr +
        (s.scheduler_cfg.base_lr - s.scheduler_cfg.target_lr) *
          (1 + Real.cos (Real.pi * rat)) / 2))
    | .linear => .ok (s.commit (s.scheduler_cfg.target_lr +
        (s.scheduler_cfg.base_lr - s.scheduler_cfg.target_lr) * (1 - rat)))
    | .decay => .exn .attributeError s

end

noncomputable section

/-- Claim C6: every completed `LRScheduler.step` call advances `current_step`
by exactly 1; a raising call leaves the whole state unchanged (so the counter
never decreases or resets); and a call made while the precondition
`0 ≤ current_step ≤ total_steps` is violated fails with the entry assertion
before any state change (learning rate unwritten, counter unchanged). -/
theorem C6_step_counter_invariant (s : LRScheduler) :
    (∀ s', s.step = .ok s' → s'.current_step = s.current_step + 1) ∧
    (∀ e s', s.step = .exn e s' → s' = s) ∧
    (s.total_steps < s.current_step → s.step = .exn .assertionError s) := by
  refine ⟨?_, ?_, ?_⟩
  · intro s' h
    unfold LRScheduler.step at h
    split at h
    · exact StepResult.noConfusion h
    · split at h
      · cases h
        rfl
      · split at h
        · exact StepResult.noConfusion h
        · split at h <;> cases h <;> rfl
  · intro e s' h
    unfold LRScheduler.step at h
    split at h
    · cases h
      rfl
    · split at h
      · exact StepResult.noConfusion h
      · split at h
        · cases h
          rfl
        · split at h <;> cases h <;> rfl
  · intro hlt
    unfold LRScheduler.step
    rw [if_pos hlt]

/-- Witness for C6 at a concrete scheduler state violating the precondition. -/
def schedC6 : LRScheduler :=
  { scheduler_cfg :=
      { mode := .cos, base_lr := 1e-4, target_lr := 1e-5, decay_factor := 0.1
        milestones := [0.3, 0.6, 0.9], poly_power := 2.0, lr_decay := 0.98
        warm_up_from := 0, warm_up_steps := 0 }
    total_steps := 0, current_step := 1, lr := none, param_groups := [1e-4] }

theorem C6_witness : schedC6.step = .exn .assertionError schedC6 :=
  (C6_step_counter_invariant schedC6).2.2 (by decide)

end

noncomputable section

/-- Claim C4 evaluation: in `decay` mode, every `step()` call past warm-up
raises `AttributeError` (the branch reads `self.training_config`, an attribute
never assigned anywhere in the source) instead of setting the learning rate. -/
theorem C4_decay_step_raises (s : LRScheduler)
    (hmode : s.scheduler_cfg.mode = .decay)
    (hw : s.scheduler_cfg.warm_up_steps ≤ s.current_step)
    (ht : s.current_step ≤ s.total_steps)
    (hne : s.total_steps ≠ s.scheduler_cfg.warm_up_steps) :
    s.step = .exn .attributeError s := by
  unfold LRScheduler.step
  rw [if_neg (by omega), if_neg (by omega), if_neg hne, hmode]

/-- Concrete decay-mode scheduler used to exhibit the C4 failure. -/
def schedC4 : LRScheduler :=
  { scheduler_cfg :=
      { mode := .decay, base_lr := 1e-4, target_lr := 1e-5, decay_factor := 0.1
        milestones := [0.3, 0.6, 0.9], poly_power := 2.0, lr_decay := 0.98
        warm_up_from := 0, warm_up_steps := 0 }
    total_steps := 10, current_step := 0, lr := none, param_groups := [1e-4] }

theorem C4_witness : schedC4.step = .exn .attributeError schedC4 :=
  C4_decay_step_raises schedC4 rfl (by decide) (by decide) (by decide)

/-- Concrete cos-mode scheduler (base_lr 1e-4, target_lr 1e-5, warm_up_steps 0,
total_steps 100) at a given current step. -/
def schedC8 (cur : ℕ) : LRScheduler :=
  { scheduler_cfg :=
      { mode := .cos, base_lr := 1e-4, target_lr := 1e-5, decay_factor := 0.1
        milestones := [0.3, 0.6, 0.9], poly_power := 2.0, lr_decay := 0.98
        warm_up_from := 0, warm_up_steps := 0 }
    total_steps := 100, current_step := cur, lr := none, param_groups := [1e-4] }

/-- Claim C8: cosine schedule values at steps 0, 50, 100. -/
theorem C8_cos_values :
    (schedC8 0).step = .ok ((schedC8 0).commit 1e-4) ∧
    (schedC8 50).step = .ok ((schedC8 50).commit 5.5e-5) ∧
    (schedC8 100).step = .ok ((schedC8 100).commit 1e-5) := by
  refine ⟨?_, ?_, ?_⟩
  · unfold LRScheduler.step
    rw [if_neg (by decide), if_neg (by decide), if_neg (by decide)]
    norm_num [schedC8]
  · unfold LRScheduler.step
    rw [if_neg (by decide), if_neg (by decide), if_neg (by decide)]
    norm_num [schedC8]
    rw [show Real.pi * (1 / 2 : ℝ) = Real.pi / 2 by ring, Real.cos_pi_div_two]
    norm_num
  · unfold LRScheduler.step
    rw [if_neg (by decide), if_neg (by decide), if_neg (by decide)]
    norm_num [schedC8]

end

noncomputable section

/-- Binary-search insertion point on a sorted three-element list: `bisectLeft`
returns the number of elements strictly less than the probe. -/
lemma bisectLeft_three {a b c x : ℝ} (hab : a ≤ b) (hbc : b ≤ c) :
    bisectLeft [a, b, c] x =
      ([a, b, c].countP fun m => decide (m < x)) := by
  have hcount : ([a, b, c].countP fun m => decide (m < x)) =
      (if a < x then 1 else 0) + ((if b < x then 1 else 0) + (if c < x then 1 else 0)) := by
    simp [List.countP_cons]
    split_ifs <;> norm_num
  rw [hcount]
  by_cases hb : b < x
  · have ha : a < x := lt_of_le_of_lt hab hb
    by_cases hc : c < x
    · norm_num [bisectLeft, bisectLeftAux, ha, hb, hc]
    · norm_num [bisectLeft, bisectLeftAux, ha, hb, hc]
  · have hc : ¬ c < x := fun h => hb (lt_of_le_of_lt hbc h)
    by_cases ha : a < x
    · norm_num [bisectLeft, bisectLeftAux, ha, hb, hc]
    · norm_num [bisectLeft, bisectLeftAux, ha, hb, hc]

end

noncomputable section

/-- Steady-state progress ratio computed by `LRScheduler.step`:
`(current_step − warm_up_steps) / (total_steps − warm_up_steps)`. -/
def stepRat (s : LRScheduler) : ℝ :=
  ((s.current_step : ℝ) - (s.scheduler_cfg.warm_up_steps : ℝ)) /
    ((s.total_steps : ℝ) - (s.scheduler_cfg.warm_up_steps : ℝ))

/-- Concrete step-mode scheduler (milestones [0.3, 0.6, 0.9], decay_factor 0.1,
base_lr 1e-4, warm_up_steps 0, total_steps 100) at a given current step. -/
def schedC7 (cur : ℕ) : LRScheduler :=
  { scheduler_cfg :=
      { mode := .step, base_lr := 1e-4, target_lr := 1e-5, decay_factor := 0.1
        milestones := [0.3, 0.6, 0.9], poly_power := 2.0, lr_decay := 0.98
        warm_up_from := 0, warm_up_steps := 0 }
    total_steps := 100, current_step := cur, lr := none, param_groups := [1e-4] }

/-- Claim C7: in step mode with milestones [0.3, 0.6, 0.9], decay_factor 0.1 and
base_lr 1e-4, a post-warm-up step sets the rate to base_lr times decay_factor
raised to the number of milestones strictly below the progress ratio; at ratios
0.2, 0.4, 0.95 the rate is 1e-4, 1e-5, 1e-7. -/
theorem C7_step_mode_schedule :
    (∀ s : LRScheduler, s.scheduler_cfg.mode = .step →
      s.scheduler_cfg.milestones = [0.3, 0.6, 0.9] →
      s.scheduler_cfg.decay_factor = 0.1 →
      s.scheduler_cfg.base_lr = 1e-4 →
      s.scheduler_cfg.warm_up_steps ≤ s.current_step →
      s.current_step ≤ s.total_steps →
      s.total_steps ≠ s.scheduler_cfg.warm_up_steps →
      s.step = .ok (s.commit ((1e-4 : ℝ) *
        (0.1 : ℝ) ^ (([0.3, 0.6, 0.9] : List ℝ).countP fun m => decide (m < stepRat s))))) ∧
    (schedC7 20).step = .ok ((schedC7 20).commit 1e-4) ∧
    (schedC7 40).step = .ok ((schedC7 40).commit 1e-5) ∧
    (schedC7 95).step = .ok ((schedC7 95).commit 1e-7) := by
  have hgen : ∀ s : LRScheduler, s.scheduler_cfg.mode = .step →
      s.scheduler_cfg.milestones = [0.3, 0.6, 0.9] →
      s.scheduler_cfg.decay_factor = 0.1 →
      s.scheduler_cfg.base_lr = 1e-4 →
      s.scheduler_cfg.warm_up_steps ≤ s.current_step →
      s.current_step ≤ s.total_steps →
      s.total_steps ≠ s.scheduler_cfg.warm_up_steps →
      s.step = .ok (s.commit ((1e-4 : ℝ) *
        (0.1 : ℝ) ^ (([0.3, 0.6, 0.9] : List ℝ).countP fun m => decide (m < stepRat s)))) := by
    intro s hmode hms hdf hbase hw ht hne
    unfold LRScheduler.step
    rw [if_neg (by omega), if_neg (by omega), if_neg hne]
    simp only [hmode]
    rw [hms, hdf, hbase, bisectLeft_three (by norm_num) (by norm_num)]
    rfl
  refine ⟨hgen, ?_, ?_, ?_⟩
  · rw [hgen (schedC7 20) rfl rfl rfl rfl (by decide) (by decide) (by decide)]
    have h0 : (([0.3, 0.6, 0.9] : List ℝ).countP fun m => decide (m < stepRat (schedC7 20))) = 0 := by
      norm_num [stepRat, schedC7, List.countP_cons]
    rw [h0]
    norm_num
  · rw [hgen (schedC7 40) rfl rfl rfl rfl (by decide) (by decide) (by decide)]
    have h1 : (([0.3, 0.6, 0.9] : List ℝ).countP fun m => decide (m < stepRat (schedC7 40))) = 1 := by
      norm_num [stepRat, schedC7, List.countP_cons]
    rw [h1]
    norm_num
  · rw [hgen (schedC7 95) rfl rfl rfl rfl (by decide) (by decide) (by decide)]
    have h3 : (([0.3, 0.6, 0.9] : List ℝ).countP fun m => decide (m < stepRat (schedC7 95))) = 3 := by
      norm_num [stepRat, schedC7, List.countP_cons]
    rw [h3]
    norm_num

end

noncomputable section

/-- Softmax entries are non-negative. -/
lemma softmax_nonneg {k : ℕ} (z : Fin k → ℝ) (j : Fin k) : 0 ≤ softmax z j :=
  div_nonneg (Real.exp_nonneg _) (Finset.sum_nonneg fun _ _ => Real.exp_nonneg _)

/-- Softmax rows sum to 1 when there is at least one cluster. -/
lemma softmax_sum {k : ℕ} (hk : 0 < k) (z : Fin k → ℝ) : ∑ j, softmax z j = 1 := by
  have hpos : 0 < ∑ j', Real.exp (z j') :=
    Finset.sum_pos (fun j _ => Real.exp_pos _) ⟨⟨0, hk⟩, Finset.mem_univ _⟩
  simp only [softmax]
  rw [← Finset.sum_div]
  exact div_self (ne_of_gt hpos)

/-- Student-t numerators are strictly positive for positive alpha. -/
lemma studentNumerator_pos {k d : ℕ} {alpha : ℝ} (hα : 0 < alpha)
    (centers : Fin k → EuclideanSpace ℝ (Fin d)) (x : EuclideanSpace ℝ (Fin d))
    (j : Fin k) : 0 < studentNumerator alpha centers x j := by
  have hns : 0 ≤ ∑ t, (x t - centers j t) ^ 2 :=
    Finset.sum_nonneg fun _ _ => sq_nonneg _
  have hbase : 0 < 1 / (1 + (∑ t, (x t - centers j t) ^ 2) / alpha) := by
    have : 0 < 1 + (∑ t, (x t - centers j t) ^ 2) / alpha := by positivity
    positivity
  exact Real.rpow_pos_of_pos hbase _

/-- Claim C1: `ClusterAssignment.forward` returns one row per input sample and
one column per cluster, each entry non-negative and each row summing to 1,
under both kernels (projection/softmax, or Student-t with row normalisation). -/
theorem C1_forward_row_stochastic {n k d : ℕ} (ca : ClusterAssignment k d)
    (batch : Fin n → EuclideanSpace ℝ (Fin d)) (hk : 0 < k) (hα : 0 < ca.alpha) :
    ∀ i, (∀ j, 0 ≤ ca.forward batch i j) ∧ (∑ j, ca.forward batch i j) = 1 := by
  intro i
  unfold ClusterAssignment.forward
  by_cases hp : ca.project_assignment = true
  · rw [if_pos hp]
    exact ⟨fun j => softmax_nonneg _ j, softmax_sum hk _⟩
  · rw [if_neg hp]
    have hpos : 0 < ∑ j', studentNumerator ca.alpha ca.cluster_centers (batch i) j' :=
      Finset.sum_pos (fun j _ => studentNumerator_pos hα _ _ j) ⟨⟨0, hk⟩, Finset.mem_univ _⟩
    constructor
    · intro j
      exact div_nonneg (le_of_lt (studentNumerator_pos hα _ _ j)) (le_of_lt hpos)
    · rw [← Finset.sum_div]
      exact div_self (ne_of_gt hpos)

/-- Concrete one-cluster assignment module and one-sample batch for the C1
witness. -/
def caW : ClusterAssignment 1 1 :=
  { alpha := 1, project_assignment := true
    cluster_centers := fun _ => fun _ => (1 : ℝ) }

theorem C1_witness :
    0 < 1 ∧ (0 : ℝ) < caW.alpha ∧
      ((∀ j, 0 ≤ caW.forward (fun _ : Fin 1 => fun _ => (1 : ℝ)) 0 j) ∧
        (∑ j, caW.forward (fun _ : Fin 1 => fun _ => (1 : ℝ)) 0 j) = 1) :=
  ⟨by decide, by norm_num [caW],
    C1_forward_row_stochastic caW (fun _ => fun _ => (1 : ℝ)) (by decide) (by norm_num [caW]) 0⟩

end

noncomputable section

/-- Claim C9: on an assignment matrix with non-negative entries, rows summing
to 1, and a strictly positive entry in every row and every column,
`DEC.target_distribution` keeps the shape and returns non-negative rows that
sum to 1. -/
theorem C9_target_distribution_row_stochastic {n k : ℕ} (batch : Fin n → Fin k → ℝ)
    (hnn : ∀ i j, 0 ≤ batch i j)
    (_hrow1 : ∀ i, ∑ j, batch i j = 1)
    (hrowpos : ∀ i, ∃ j, 0 < batch i j)
    (hcolpos : ∀ j, ∃ i, 0 < batch i j) :
    ∀ i, (∀ j, 0 ≤ DEC.target_distribution batch i j) ∧
      (∑ j, DEC.target_distribution batch i j) = 1 := by
  intro i
  have hcol : ∀ j, 0 < ∑ i', batch i' j := by
    intro j
    obtain ⟨i0, hi0⟩ := hcolpos j
    exact Finset.sum_pos' (fun i' _ => hnn i' j) ⟨i0, Finset.mem_univ _, hi0⟩
  have hw : ∀ i' j, 0 ≤ batch i' j ^ 2 / ∑ i'', batch i'' j := fun i' j =>
    div_nonneg (sq_nonneg _) (le_of_lt (hcol j))
  have hW : 0 < ∑ j', batch i j' ^ 2 / ∑ i'', batch i'' j' := by
    obtain ⟨j0, hj0⟩ := hrowpos i
    exact Finset.sum_pos' (fun j' _ => hw i j')
      ⟨j0, Finset.mem_univ _, div_pos (pow_pos hj0 2) (hcol j0)⟩
  constructor
  · intro j
    exact div_nonneg (hw i j) (le_of_lt hW)
  · unfold DEC.target_distribution
    rw [← Finset.sum_div]
    exact div_self (ne_of_gt hW)

theorem C9_witness :
    (∀ _i _j : Fin 1, 0 ≤ (1 : ℝ)) ∧
      ((∀ j, 0 ≤ DEC.target_distribution (fun _ _ : Fin 1 => (1 : ℝ)) 0 j) ∧
        (∑ j, DEC.target_distribution (fun _ _ : Fin 1 => (1 : ℝ)) 0 j) = 1) :=
  ⟨fun _ _ => zero_le_one,
    C9_target_distribution_row_stochastic (fun _ _ => (1 : ℝ))
      (fun _ _ => zero_le_one) (fun _ => by simp) (fun _ => ⟨0, one_pos⟩)
      (fun _ => ⟨0, one_pos⟩) 0⟩

end

noncomputable section

/-- Assignments collected by `forward` from stages that all have
`pooling=False` are all Python `None`. -/
lemma forwardAssignments_all_none {A : Type} (stages : List (BNTStage A)) (f : ℕ → A)
    (hnp : ∀ st ∈ stages, st.pooling = false) :
    ∀ a ∈ forwardAssignments stages f, a = none := by
  induction stages generalizing f with
  | nil => intro a ha; cases ha
  | cons st rest ih =>
    intro a ha
    rw [forwardAssignments] at ha
    rcases List.mem_cons.1 ha with ha | ha
    · rw [hnp st (List.mem_cons_self _ _)] at ha
      simpa using ha
    · exact ih _ (fun s hs => hnp s (List.mem_cons_of_mem _ hs)) a ha

/-- Concrete two-stage model with both pooling flags false, for the C3
counterexample. -/
def stagesC3 : List (BNTStage Unit) :=
  [{ pooling := false, decLoss := fun _ => 0 },
   { pooling := false, decLoss := fun _ => 0 }]

/-- Counterexample to claim C3 as stated: with every pooling flag false, the
assignments collected by `forward` are all `None` and
`BrainNetworkTransformer.loss` returns Python `None` (no exception), which is
not the value 0. -/
theorem C3_counterexample :
    BrainNetworkTransformer.loss stagesC3 (forwardAssignments stagesC3 fun _ => ()) =
      .ok none ∧
    (Except.ok (none : Option ℝ) : Except PyErr (Option ℝ)) ≠ .ok (some 0) := by
  constructor
  · rfl
  · intro h
    simp at h

/-- Claim C3 (amended): for a stack whose stages all have `pooling=False`,
`loss` applied to the assignments collected by `forward` (all of which are
`None`) returns Python `None` — not the number 0 — and raises no error. -/
theorem C3_loss_no_pooling {A : Type} (stages : List (BNTStage A)) (f : ℕ → A)
    (hnp : ∀ st ∈ stages, st.pooling = false) :
    BrainNetworkTransformer.loss stages (forwardAssignments stages f) = .ok none := by
  unfold BrainNetworkTransformer.loss
  have hempty : (forwardAssignments stages f).filterMap id = [] := by
    rw [List.filterMap_eq_nil_iff]
    intro a ha
    exact forwardAssignments_all_none stages f hnp a ha
  rw [hempty]
  cases stages.filter (·.pooling) with
  | nil => rfl
  | cons d ds => rfl

theorem C3_witness :
    (∀ st ∈ stagesC3, st.pooling = false) ∧
      BrainNetworkTransformer.loss stagesC3 (forwardAssignments stagesC3 fun _ => ()) =
        .ok none :=
  ⟨by decide, C3_loss_no_pooling stagesC3 (fun _ => ()) (by decide)⟩

end

noncomputable section

/-- Claim C10: the constructor overwrites the first configured size with
`node_sz`, so the first `TransPoolingEncoder` is built with input node count
and output node count both equal to `node_sz`, and the originally configured
first size is ignored. -/
theorem C10_first_stage_node_sz (cfg : ModelCfg) (hs : cfg.sizes ≠ [])
    (hp : cfg.sizes.length ≤ cfg.pooling.length) :
    ((buildStages cfg).toOption.bind List.head?).map (·.input_node_num) =
        some cfg.node_sz ∧
    ((buildStages cfg).toOption.bind List.head?).map (·.output_node_num) =
        some cfg.node_sz ∧
    (∀ a, buildStages { cfg with sizes := a :: cfg.sizes.tail } = buildStages cfg) := by
  rcases cfg with ⟨sizes, pooling, pe, nsz, nfs, ped, os, ort, fc, pa⟩
  obtain ⟨s0, tail, rfl⟩ := List.exists_cons_of_ne_nil hs
  have hpne : pooling ≠ [] := by
    intro h
    rw [h] at hp
    simp at hp
  obtain ⟨p0, ptail, rfl⟩ := List.exists_cons_of_ne_nil hpne
  have hlen : ¬ ((p0 :: ptail).length < (nsz :: tail).length) := by
    simp only [List.length_cons] at hp ⊢
    omega
  refine ⟨?_, ?_, ?_⟩
  · simp only [buildStages, hlen, if_false, List.zip_cons_cons, List.map_cons]
    rfl
  · simp only [buildStages, hlen, if_false, List.zip_cons_cons, List.map_cons]
    rfl
  · intro a
    rfl

/-- Concrete configuration (the default one: sizes [360, 100],
pooling [False, True]) used to witness C10 and exhibit C5. -/
def cfgC5 : ModelCfg :=
  { sizes := [360, 100], pooling := [false, true], pos_encoding := .nullEnc
    node_sz := 360, node_feature_sz := 360, pos_embed_dim := 360, output_size := 2
    orthogonal := true, freeze_center := true, project_assignment := true }

theorem C10_witness :
    ((buildStages cfgC5).toOption.bind List.head?).map (·.input_node_num) = some 360 ∧
    ((buildStages cfgC5).toOption.bind List.head?).map (·.output_node_num) = some 360 :=
  ⟨(C10_first_stage_node_sz cfgC5 (by decide) (by decide)).1,
   (C10_first_stage_node_sz cfgC5 (by decide) (by decide)).2.1⟩

/-- Claim C5 evaluation: for every successfully constructed
`BrainNetworkTransformer`, no attribute `dec` was ever assigned, so
`get_cluster_centers` (whose body reads `self.dec`) raises `AttributeError`
instead of returning the cluster centers of the final pooling stage. -/
theorem C5_get_cluster_centers_raises (cfg : ModelCfg) (m : BrainNetworkTransformer)
    (h : BrainNetworkTransformer.init cfg = .ok m) :
    m.dec = none ∧ m.get_cluster_centers = .error .attributeError := by
  unfold BrainNetworkTransformer.init at h
  cases hb : buildStages cfg with
  | error e =>
    rw [hb] at h
    exact Except.noConfusion h
  | ok stages =>
    rw [hb] at h
    simp only [Except.map] at h
    cases h
    exact ⟨rfl, rfl⟩

/-- Constructed model for the default configuration. -/
def bntC5 : BrainNetworkTransformer :=
  { pos_encoding := .nullEnc
    attention_list := [⟨360, 360, 360, false⟩, ⟨360, 360, 100, true⟩]
    do_pooling := [false, true]
    dec := none }

theorem C5_witness :
    bntC5.dec = none ∧ bntC5.get_cluster_centers = .error .attributeError :=
  C5_get_cluster_centers_raises cfgC5 bntC5 rfl

end

noncomputable section

instance wfltFin (k : ℕ) : WellFoundedLT (Fin k) := inferInstance

/-- Real inner product on Euclidean space agrees with the embedded `torch.dot`. -/
lemma inner_eq_dotv {d : ℕ} (u v : EuclideanSpace ℝ (Fin d)) :
    (inner u v : ℝ) = dotv u v := by
  simp [dotv, PiLp.inner_apply, RCLike.inner_apply, starRingEnd_apply, star_trivial]

/-- Mathlib norm squared agrees with the embedded self dot product. -/
lemma norm_sq_eq_dotv {d : ℕ} (u : EuclideanSpace ℝ (Fin d)) :
    (‖u‖ : ℝ) ^ 2 = dotv u u := by
  rw [← real_inner_self_eq_norm_sq, inner_eq_dotv]

/-- Embedded `torch.norm(·, p=2)` agrees with the Mathlib Euclidean norm. -/
lemma l2norm_eq_norm {d : ℕ} (u : EuclideanSpace ℝ (Fin d)) : l2norm u = ‖u‖ := by
  rw [EuclideanSpace.norm_eq, l2norm]
  congr 1
  refine Finset.sum_congr rfl fun t _ => ?_
  rw [Real.norm_eq_abs, sq_abs]

/-- `ClusterAssignment.project u v` is the orthogonal projection of `v` onto the
line spanned by `u` (both give 0 when `u = 0`, since division by zero is 0). -/
lemma project_eq_orthogonalProjection {d : ℕ} (u v : EuclideanSpace ℝ (Fin d)) :
    ClusterAssignment.project u v =
      (orthogonalProjection (ℝ ∙ u) v : EuclideanSpace ℝ (Fin d)) := by
  rw [orthogonalProjection_singleton, ClusterAssignment.project, inner_eq_dotv,
    ← norm_sq_eq_dotv]
  norm_num

/-- In-place orthogonalisation in the source computes exactly the
Gram-Schmidt process: at step `i` the already processed rows `j < i` hold
their orthogonalised versions, which is the Mathlib recursion. -/
lemma orthogonalized_eq_gramSchmidt {k d : ℕ} (c : Fin k → EuclideanSpace ℝ (Fin d))
    (i : Fin k) : orthogonalized c i = gramSchmidt ℝ c i := by
  suffices h : ∀ n : ℕ, ∀ i : Fin k, i.val = n → orthogonalized c i = gramSchmidt ℝ c i from
    h i.val i rfl
  intro n
  induction n using Nat.strong_induction_on with
  | _ n ih =>
    intro i hi
    rw [orthogonalized, gramSchmidt_def, ← Finset.sum_attach (Finset.Iio i)]
    congr 1
    refine Finset.sum_congr rfl fun j _ => ?_
    have hj : (j : Fin k) < i := Finset.mem_Iio.1 j.2
    rw [project_eq_orthogonalProjection, ih (j : Fin k).val (hi ▸ hj) (j : Fin k) rfl]

/-- Claim C2: after the `orthogonal=True` constructor path, center 0 is the
initial center 0 unchanged; any two distinct post-orthogonalisation centers
with indices ≥ 1 have dot product 0; and every center with index ≥ 1 has unit
L2 norm (given at least two linearly independent initial centers, so that no
zero-norm division occurs). -/
theorem C2_orthogonal_centers {k d : ℕ} (initial : Fin k → EuclideanSpace ℝ (Fin d))
    (_hk : 2 ≤ k) (hli : LinearIndependent ℝ initial) :
    (∀ h0 : 0 < k, mkClusterCenters initial true ⟨0, h0⟩ = initial ⟨0, h0⟩) ∧
    (∀ i j : Fin k, 1 ≤ i.val → 1 ≤ j.val → i ≠ j →
      dotv (mkClusterCenters initial true i) (mkClusterCenters initial true j) = 0) ∧
    (∀ i : Fin k, 1 ≤ i.val → l2norm (mkClusterCenters initial true i) = 1) := by
  have hmk : mkClusterCenters initial true = orthoCenters initial := by
    rw [mkClusterCenters, if_pos rfl]
  refine ⟨?_, ?_, ?_⟩
  · intro h0
    rw [hmk, orthoCenters, if_pos rfl]
  · intro i j hi hj hij
    rw [hmk, orthoCenters, orthoCenters, if_neg (by omega), if_neg (by omega),
      ← inner_eq_dotv, real_inner_smul_left, real_inner_smul_right,
      orthogonalized_eq_gramSchmidt, orthogonalized_eq_gramSchmidt,
      gramSchmidt_orthogonal ℝ initial hij]
    ring
  · intro i hi
    rw [hmk, orthoCenters, if_neg (by omega), l2norm_eq_norm, l2norm_eq_norm,
      orthogonalized_eq_gramSchmidt]
    exact norm_smul_inv_norm (gramSchmidt_ne_zero i hli)

end

noncomputable section

/-- Concrete initial centers (the two standard basis vectors of the plane)
for the C2 witness. -/
def cW2 : Fin 2 → EuclideanSpace ℝ (Fin 2) := fun i => EuclideanSpace.single i 1

lemma cW2_linearIndependent : LinearIndependent ℝ cW2 := by
  have h := (EuclideanSpace.basisFun (Fin 2) ℝ).toBasis.linearIndependent
  rw [OrthonormalBasis.coe_toBasis] at h
  have he : ⇑(EuclideanSpace.basisFun (Fin 2) ℝ) = cW2 := by
    funext i
    rw [EuclideanSpace.basisFun_apply, cW2]
  rwa [he] at h

theorem C2_witness :
    (∀ h0 : 0 < 2, mkClusterCenters cW2 true ⟨0, h0⟩ = cW2 ⟨0, h0⟩) ∧
    (∀ i j : Fin 2, 1 ≤ i.val → 1 ≤ j.val → i ≠ j →
      dotv (mkClusterCenters cW2 true i) (mkClusterCenters cW2 true j) = 0) ∧
    (∀ i : Fin 2, 1 ≤ i.val → l2norm (mkClusterCenters cW2 true i) = 1) :=
  C2_orthogonal_centers cW2 (by norm_num) cW2_linearIndependent

end
